import Mathlib

/-
Verification of the `gods` dwm status-bar program.

The repository contains two near-duplicate variants of the main program
(both in src/gods.go, referred to below as variant A — the one using
per-battery uevent files parsed through the key-value store of
src/unnamed/part_000 — and variant B — the one using discrete per-battery
files and the fixed-width rate formatter `fixed`).

Modelling conventions:
- Go `int` is modelled as unbounded `Int` (the claims under study never
  exercise 64-bit wraparound); Go integer division `/` truncates toward
  zero and is modelled by `Int.tdiv`.
- File system reads are abstracted into explicit inputs: a file is either
  absent (`none` / missing association) or present with its full content.
- Go `float32` conversions and comparisons are modelled exactly:
  `f32round` is round-to-nearest-even of a natural number to a 24-bit
  significand, which is precisely the value of Go's `float32(n)` for
  naturals in the normal range; `timeInMin` reproduces the exact rounding
  of `int(float32(a)/float32(b) * 60)`.  Only the *printed decimal digits*
  of the B/s / KiB/s / MiB/s rates (the `%3.0f`-style formatting in
  `fixed`) are abstracted away, since no claim is about them: `fixed` is
  modelled down to the selected branch (error string, divisor and unit
  suffix).
-/

namespace Gods

/-! ## Constants (src/gods.go, const blocks of both variants) -/

def bpsSign : String := "B/s"

def kibpsSign : String := "KiB/s"

def mibpsSign : String := "MiB/s"

def unpluggedSign : String := "BAT"

def pluggedSign : String := "AC"

def memSign : String := "MEM"

def netReceivedSign : String := "RX"

def netTransmittedSign : String := "TX"

/-- Base directory of the power-supply pseudo files (variant B spelling,
with trailing slash). -/
def powerSupply : String := "/sys/class/power_supply/"

/-- The configured interface set `netDevs` (src/gods.go lines 38-41). -/
def netDevs : List String := ["enp0s25:", "wlp4s0:"]

/-! ## The key-value store (src/unnamed/part_000)

Go's `strings.Split(line, "=")` splits on *every* occurrence of the
separator; `splitOnChar` mirrors it on the character list of the line.
The Go map `values` is modelled as an association list where an insert
prepends, and lookup returns the most recent binding. -/

/-- Go `strings.Split` with a single-character separator, on char lists. -/
def splitOnChar (sep : Char) : List Char → List (List Char)
  | [] => [[]]
  | c :: rest =>
    let r := splitOnChar sep rest
    if c = sep then [] :: r
    else
      match r with
      | [] => [[c]]
      | g :: gs => (c :: g) :: gs

/-- The `Hash` of src/unnamed/part_000: a string-to-string map. -/
abbrev Hash := List (String × String)

/-- Lookup in the map: the most recently inserted binding wins, matching
Go map assignment/lookup semantics for the prepend-insert below. -/
def hashFind : Hash → String → Option String
  | [], _ => none
  | (k, v) :: rest, key => if k = key then some v else hashFind rest key

/-- One iteration of the scanner loop of `parseFile`
(src/unnamed/part_000 lines 27-33): split the line on `=`; if it splits
into exactly two parts, insert the binding, otherwise skip the line. -/
def parseLine (h : Hash) (line : String) : Hash :=
  match splitOnChar '=' line.toList with
  | [k, v] => (String.mk k, String.mk v) :: h
  | _ => h

/-- `parseFile` (src/unnamed/part_000 lines 14-36) with the file
abstracted to its list of scanned lines; an unopenable file is the empty
list, yielding the empty store exactly as in the source. -/
def parseLines (lines : List String) : Hash :=
  lines.foldl parseLine []

/-- Go `strconv.Atoi`: optional sign, one or more ASCII digits, nothing
else, 64-bit range check; `none` models a non-nil error. -/
def parseDigits (cs : List Char) : Option Nat :=
  if cs.isEmpty then none
  else
    cs.foldl
      (fun acc c =>
        match acc with
        | none => none
        | some n => if c.isDigit then some (n * 10 + (c.toNat - 48)) else none)
      (some 0)

/-- Go `strconv.Atoi` (value on success, `none` on error). -/
def atoi (s : String) : Option Int :=
  let signed : Bool × List Char :=
    match s.toList with
    | '+' :: rest => (false, rest)
    | '-' :: rest => (true, rest)
    | cs => (false, cs)
  match parseDigits signed.2 with
  | none => none
  | some n =>
    if signed.1 then if n ≤ 2 ^ 63 then some (-(n : Int)) else none
    else if n < 2 ^ 63 then some (n : Int) else none

/-- `Hash.GetInt` (src/unnamed/part_000 lines 48-54): integer-parse the
stored value (a missing key reads as the empty string, Go's zero value),
returning 0 on any parse error. -/
def GetInt (h : Hash) (field : String) : Int :=
  match atoi ((hashFind h field).getD "") with
  | some v => v
  | none => 0

/-- `Hash.SearchForInt` (src/unnamed/part_000 lines 38-46): first
candidate key that exists in the map is parsed; otherwise 0. -/
def SearchForInt (h : Hash) : List String → Int
  | [] => 0
  | f :: rest => if (hashFind h f).isSome then GetInt h f else SearchForInt h rest

/-! ## Helper lemmas about the store -/

theorem splitOnChar_ne_nil (sep : Char) (cs : List Char) : splitOnChar sep cs ≠ [] := by
  cases cs with
  | nil => simp [splitOnChar]
  | cons c rest =>
    simp only [splitOnChar]
    split
    · simp
    · split <;> simp

theorem splitOnChar_of_not_mem (sep : Char) (cs : List Char) (h : sep ∉ cs) :
    splitOnChar sep cs = [cs] := by
  induction cs with
  | nil => rfl
  | cons c rest ih =>
    simp only [List.mem_cons, not_or] at h
    simp only [splitOnChar]
    rw [if_neg (fun hc => h.1 hc.symm), ih h.2]

/-! ## Claim C5 -/

/-- C5: for every store and candidate-key list, `SearchForInt` returns the
integer-parsed value of the first candidate key present in the store
(`(atoi v).getD 0`, hence 0 when that value does not parse as an
integer), and returns 0 when no candidate key is present. -/
theorem c5_searchForInt (h : Hash) (fields : List String) :
    ((∀ g ∈ fields, hashFind h g = none) → SearchForInt h fields = 0) ∧
    (∀ pre f rest v, fields = pre ++ f :: rest →
      (∀ g ∈ pre, hashFind h g = none) → hashFind h f = some v →
      SearchForInt h fields = (atoi v).getD 0) := by
  constructor
  · intro habs
    induction fields with
    | nil => rfl
    | cons g rest ih =>
      have hg : hashFind h g = none := habs g (by simp)
      simp only [SearchForInt, hg, Option.isSome_none, Bool.false_eq_true, if_false]
      exact ih fun x hx => habs x (by simp [hx])
  · intro pre f rest v hsplit hpre hf
    subst hsplit
    induction pre with
    | nil =>
      simp only [List.nil_append, SearchForInt, hf, Option.isSome_some, if_true]
      simp only [GetInt, hf, Option.getD_some]
      cases atoi v <;> rfl
    | cons g pre ih =>
      have hg : hashFind h g = none := hpre g (by simp)
      simp only [List.cons_append, SearchForInt, hg, Option.isSome_none,
        Bool.false_eq_true, if_false]
      exact ih fun x hx => hpre x (by simp [hx])

/-- C5 witness: store from the file `A=12`, `B=x`; the first present
candidate among `C`, `B` is `B`, whose value `x` does not parse, so the
result is 0; and on the all-absent list `C` alone the result is 0. -/
theorem c5_searchForInt_witness :
    SearchForInt (parseLines ["A=12", "B=x"]) ["C", "B"] = 0 ∧
    SearchForInt (parseLines ["A=12", "B=x"]) ["C"] = 0 :=
  ⟨((c5_searchForInt (parseLines ["A=12", "B=x"]) ["C", "B"]).2
      ["C"] "B" [] "x" rfl (by decide) (by decide)).trans (by decide),
   (c5_searchForInt (parseLines ["A=12", "B=x"]) ["C"]).1 (by decide)⟩

/-! ## Claim C6 -/

/-- C6: `parse` skips every line that does not split into exactly two
parts on the `=` separator — in particular a line with no `=` at all and
(as the concrete line `a=b=c` shows) a line with multiple `=` contribute
no entry — and a later duplicate key overwrites an earlier one. -/
theorem c6_parse (h : Hash) (line : String) :
    ((splitOnChar '=' line.toList).length ≠ 2 → parseLine h line = h) ∧
    ('=' ∉ line.toList → parseLine h line = h) ∧
    (∀ l1 l2 k v1 v2, splitOnChar '=' l1.toList = [k, v1] →
      splitOnChar '=' l2.toList = [k, v2] →
      hashFind (parseLine (parseLine h l1) l2) (String.mk k) = some (String.mk v2)) ∧
    parseLines ["a=b=c"] = [] := by
  refine ⟨?_, ?_, ?_, by decide⟩
  · intro hlen
    unfold parseLine
    split
    · rename_i heq
      rw [heq] at hlen
      simp at hlen
    · rfl
  · intro hmem
    unfold parseLine
    rw [splitOnChar_of_not_mem _ _ hmem]
  · intro l1 l2 k v1 v2 h1 h2
    unfold parseLine
    rw [h1, h2]
    simp [hashFind]

/-- C6 witness: the malformed lines `nosep` (no `=`) and `a=b=c`
(two `=`) are skipped, and of the duplicate lines `k=1`, `k=2` the later
one wins. -/
theorem c6_parse_witness :
    parseLine [] "nosep" = [] ∧
    hashFind (parseLine (parseLine [] "k=1") "k=2") "k" = some "2" :=
  ⟨(c6_parse [] "nosep").2.1 (by decide),
   (c6_parse [] "nosep").2.2.1 "k=1" "k=2" ['k'] ['1'] ['2'] (by decide) (by decide)⟩

/-! ## Claim C9 (variant A battery aggregation, src/gods.go lines 124-126)

The source spells the second fallback key for the now-energy as
`POWR_SUPPLY_CHARGE_NOW` (line 125) — the key list is transcribed here
character for character. -/

def powerKeysFull : List String :=
  ["POWER_SUPPLY_ENERGY_FULL", "POWER_SUPPLY_CHARGE_FULL"]

def powerKeysNow : List String :=
  ["POWER_SUPPLY_ENERGY_NOW", "POWR_SUPPLY_CHARGE_NOW"]

def powerKeysCur : List String :=
  ["POWER_SUPPLY_CURRENT_NOW", "POWER_SUPPLY_POWER_NOW"]

/-- Per-battery full-energy contribution in variant A (line 124). -/
def battEnFull (lines : List String) : Int :=
  SearchForInt (parseLines lines) powerKeysFull

/-- Per-battery now-energy contribution in variant A (line 125). -/
def battEnNow (lines : List String) : Int :=
  SearchForInt (parseLines lines) powerKeysNow

/-- Per-battery current-draw contribution in variant A (line 126). -/
def battCurNow (lines : List String) : Int :=
  SearchForInt (parseLines lines) powerKeysCur

/-- C9: a battery whose uevent file defines `POWER_SUPPLY_CHARGE_NOW`
(and not `POWER_SUPPLY_ENERGY_NOW`) contributes 0 — not the key's value —
to the now-energy aggregate, because line 125 of the source searches for
the misspelled key `POWR_SUPPLY_CHARGE_NOW`; the correctly spelled key
list claimed by the spec would have returned the value 1000. -/
theorem c9_chargeNow_typo :
    battEnNow ["POWER_SUPPLY_CHARGE_NOW=1000"] = 0 ∧
    SearchForInt (parseLines ["POWER_SUPPLY_CHARGE_NOW=1000"])
      ["POWER_SUPPLY_ENERGY_NOW", "POWER_SUPPLY_CHARGE_NOW"] = 1000 := by
  constructor <;> decide

/-! ## Exact model of Go `float32(n)` for natural `n`

A natural below `2^24` is represented exactly; otherwise the value is
rounded to 24 significant bits with ties to even, which is IEEE-754
round-to-nearest-even (the normal range of `float32` covers every `n`
that fits in a Go int).  `f32e fuel n` counts the halvings needed to
bring `n` below `2^24` (fuel-based so that the kernel can evaluate it). -/

def f32e : Nat → Nat → Nat
  | 0, _ => 0
  | fuel + 1, n => if n < 2 ^ 24 then 0 else f32e fuel (n / 2) + 1

def f32E (n : Nat) : Nat := f32e n n

/-- The value of Go `float32(n)` as a natural number (it is always an
integer for integer input: the dropped low `f32E n` bits are replaced by
zeros, rounding to nearest with ties to even). -/
def f32round (n : Nat) : Nat :=
  if n < 2 ^ 24 then n
  else if 2 ^ (f32E n - 1) < n % 2 ^ f32E n
      ∨ (n % 2 ^ f32E n = 2 ^ (f32E n - 1) ∧ (n / 2 ^ f32E n) % 2 = 1) then
    (n / 2 ^ f32E n + 1) * 2 ^ f32E n
  else n / 2 ^ f32E n * 2 ^ f32E n

theorem f32e_of_lt (fuel n : Nat) (h : n < 2 ^ 24) : f32e fuel n = 0 := by
  cases fuel with
  | zero => rfl
  | succ f => rw [f32e, if_pos h]

theorem f32e_spec : ∀ fuel n, n ≤ fuel → 2 ^ 24 ≤ n →
    2 ^ (23 + f32e fuel n) ≤ n ∧ n < 2 ^ (24 + f32e fuel n) := by
  intro fuel
  induction fuel with
  | zero =>
    intro n h1 h2
    have : (2 : Nat) ^ 24 = 16777216 := by norm_num
    omega
  | succ f ih =>
    intro n hn h24
    rw [f32e, if_neg (by omega)]
    by_cases hsmall : n / 2 < 2 ^ 24
    · rw [f32e_of_lt f _ hsmall]
      have h25 : (2 : Nat) ^ (24 + (0 + 1)) = 2 ^ 24 * 2 := by ring
      have h24e : (2 : Nat) ^ (23 + (0 + 1)) = 2 ^ 24 := by ring
      rw [h25, h24e]
      omega
    · have hrec := ih (n / 2) (by omega) (by omega)
      set e := f32e f (n / 2) with he
      have hs1 : (2 : Nat) ^ (23 + (e + 1)) = 2 ^ (23 + e) * 2 := by ring
      have hs2 : (2 : Nat) ^ (24 + (e + 1)) = 2 ^ (24 + e) * 2 := by ring
      rw [hs1, hs2]
      omega

theorem f32E_spec (n : Nat) (h : 2 ^ 24 ≤ n) :
    2 ^ (23 + f32E n) ≤ n ∧ n < 2 ^ (24 + f32E n) :=
  f32e_spec n n le_rfl h

theorem f32E_pos (n : Nat) (h : 2 ^ 24 ≤ n) : 1 ≤ f32E n := by
  rcases Nat.eq_zero_or_pos (f32E n) with h0 | h1
  · exfalso
    have := (f32E_spec n h).2
    rw [h0] at this
    omega
  · exact h1

theorem f32round_of_lt (n : Nat) (h : n < 2 ^ 24) : f32round n = n := by
  rw [f32round, if_pos h]

theorem f32round_lb (n : Nat) (h : 2 ^ 24 ≤ n) :
    n / 2 ^ f32E n * 2 ^ f32E n ≤ f32round n := by
  rw [f32round, if_neg (by omega)]
  split
  · exact Nat.mul_le_mul_right _ (Nat.le_succ _)
  · exact le_rfl

theorem f32round_ub (n : Nat) (h : 2 ^ 24 ≤ n) :
    f32round n ≤ n + 2 ^ (f32E n - 1) := by
  rw [f32round, if_neg (by omega)]
  have hdm : n / 2 ^ f32E n * 2 ^ f32E n + n % 2 ^ f32E n = n := by
    rw [Nat.mul_comm]
    exact Nat.div_add_mod n (2 ^ f32E n)
  have he1 : 1 ≤ f32E n := f32E_pos n h
  have hpow : (2 : Nat) ^ f32E n = 2 ^ (f32E n - 1) * 2 := by
    rw [← pow_succ]
    congr 1
    omega
  have hexp : (n / 2 ^ f32E n + 1) * 2 ^ f32E n
      = n / 2 ^ f32E n * 2 ^ f32E n + 2 ^ f32E n := by ring
  split
  · rename_i hcond
    have hlow : 2 ^ (f32E n - 1) ≤ n % 2 ^ f32E n := by
      rcases hcond with hlt | ⟨heq, _⟩
      · omega
      · omega
    omega
  · omega

theorem f32round_ge_pow24 (n : Nat) (h : 2 ^ 24 ≤ n) : 2 ^ 24 ≤ f32round n := by
  have hq : 2 ^ 23 ≤ n / 2 ^ f32E n := by
    rw [Nat.le_div_iff_mul_le (Nat.pos_pow_of_pos _ (by norm_num))]
    calc 2 ^ 23 * 2 ^ f32E n = 2 ^ (23 + f32E n) := by rw [pow_add]
    _ ≤ n := (f32E_spec n h).1
  have he1 : 1 ≤ f32E n := f32E_pos n h
  have hlb := f32round_lb n h
  have : 2 ^ 23 * 2 ^ f32E n ≤ n / 2 ^ f32E n * 2 ^ f32E n :=
    Nat.mul_le_mul_right _ hq
  have h2e : (2 : Nat) ^ 1 ≤ 2 ^ f32E n := Nat.pow_le_pow_right (by norm_num) he1
  have h24 : (2 : Nat) ^ 24 ≤ 2 ^ 23 * 2 ^ f32E n := by
    calc (2 : Nat) ^ 24 = 2 ^ 23 * 2 ^ 1 := by norm_num
    _ ≤ 2 ^ 23 * 2 ^ f32E n := Nat.mul_le_mul_left _ h2e
  omega

/-- The 32 naturals just below `1000·1024·1024` that `float32` rounds up
to the ceiling. -/
theorem f32round_window : ∀ k, k < 32 → f32round (1048575968 + k) = 1048576000 := by
  decide

theorem f32round_ceiling_of_ge (n : Nat) (h : 1048575968 ≤ n) :
    1048576000 ≤ f32round n := by
  by_cases hlow : n < 1048576000
  · have hk : n - 1048575968 < 32 := by omega
    have := f32round_window (n - 1048575968) hk
    have hn : 1048575968 + (n - 1048575968) = n := by omega
    rw [hn] at this
    omega
  · -- n ≥ 1048576000: the rounded-down value is already at least the ceiling
    have h24 : 2 ^ 24 ≤ n := by
      have : (2 : Nat) ^ 24 = 16777216 := by norm_num
      omega
    have hlb := f32round_lb n h24
    by_cases he : f32E n ≤ 23
    · have hdvd : 2 ^ f32E n ∣ 1048576000 := by
        have h1 : (2 : Nat) ^ f32E n ∣ 2 ^ 23 := pow_dvd_pow 2 he
        have h2 : (2 : Nat) ^ 23 ∣ 1048576000 := ⟨125, by norm_num⟩
        exact dvd_trans h1 h2
      have hdiv : 1048576000 / 2 ^ f32E n * 2 ^ f32E n = 1048576000 :=
        Nat.div_mul_cancel hdvd
      have hmono : 1048576000 / 2 ^ f32E n ≤ n / 2 ^ f32E n :=
        Nat.div_le_div_right (by omega)
      have := Nat.mul_le_mul_right (2 ^ f32E n) hmono
      omega
    · have h24e : 24 ≤ f32E n := by omega
      have hq : 2 ^ 23 ≤ n / 2 ^ f32E n := by
        rw [Nat.le_div_iff_mul_le (Nat.pos_pow_of_pos _ (by norm_num))]
        calc 2 ^ 23 * 2 ^ f32E n = 2 ^ (23 + f32E n) := by rw [pow_add]
        _ ≤ n := (f32E_spec n h24).1
      have hbig : 2 ^ 23 * 2 ^ f32E n ≤ n / 2 ^ f32E n * 2 ^ f32E n :=
        Nat.mul_le_mul_right _ hq
      have h2e : (2 : Nat) ^ 24 ≤ 2 ^ f32E n := Nat.pow_le_pow_right (by norm_num) h24e
      have hval : (1048576000 : Nat) ≤ 2 ^ 23 * 2 ^ 24 := by norm_num
      have : 2 ^ 23 * 2 ^ 24 ≤ 2 ^ 23 * 2 ^ f32E n := Nat.mul_le_mul_left _ h2e
      omega

theorem f32round_lt_ceiling (n : Nat) (h : n < 1048575968) :
    f32round n < 1048576000 := by
  by_cases h24 : n < 2 ^ 24
  · rw [f32round_of_lt n h24]
    have : (2 : Nat) ^ 24 = 16777216 := by norm_num
    omega
  · have h24' : 2 ^ 24 ≤ n := by omega
    have hub := f32round_ub n h24'
    have hesmall : f32E n ≤ 6 := by
      have hspec := (f32E_spec n h24').1
      by_contra hcon
      have h7 : 7 ≤ f32E n := by omega
      have : (2 : Nat) ^ (23 + 7) ≤ 2 ^ (23 + f32E n) :=
        Nat.pow_le_pow_right (by norm_num) (by omega)
      have hv : (2 : Nat) ^ (23 + 7) = 1073741824 := by norm_num
      omega
    have : (2 : Nat) ^ (f32E n - 1) ≤ 2 ^ 5 :=
      Nat.pow_le_pow_right (by norm_num) (by omega)
    have h32 : (2 : Nat) ^ 5 = 32 := by norm_num
    omega

theorem f32round_threshold (n t : Nat) (ht : t ≤ 2 ^ 24) :
    t ≤ f32round n ↔ t ≤ n := by
  by_cases h24 : n < 2 ^ 24
  · rw [f32round_of_lt n h24]
  · have h24' : 2 ^ 24 ≤ n := by omega
    have := f32round_ge_pow24 n h24'
    constructor <;> intro <;> omega

/-! ## The rate formatter `fixed` (src/gods.go lines 290-320, variant B)

Modelled down to the selected branch: the error strings are built as in
the source, and a non-error result records the prefix, the divisor the
branch applies to `spd` and the unit suffix; only the decimal rendering
of the divided value is abstracted.  The branch conditions compare the
exact value of `float32(rate)`. -/

inductive FixedOut where
  | err (s : String)
  | disp (pre : String) (divisor : Nat) (suffix : String)
deriving DecidableEq

def fixed (pre : String) (rate : Int) : FixedOut :=
  if rate < 0 then .err (pre ++ " ERR")
  else
    let spd := f32round rate.toNat
    if 1000 * 1024 * 1024 ≤ spd then .err (pre ++ "ERR")
    else if 1000 * 1024 ≤ spd then .disp pre (1024 * 1024) mibpsSign
    else if 1000 ≤ spd then .disp pre 1024 kibpsSign
    else .disp pre 1 bpsSign

/-! ## Claim C1 -/

/-- C1 counterexample: the rate 1048575968 lies in the claim's MiB/s
window `1000·1024 ≤ rate < 1000·1024·1024`, yet `fixed` returns the
overflow error marker, because `float32(1048575968)` rounds up to
`1000·1024·1024`. -/
theorem c1_fixed_counterexample :
    (1000 * 1024 ≤ (1048575968 : Int) ∧ (1048575968 : Int) < 1000 * 1024 * 1024) ∧
    fixed "RX" 1048575968 = FixedOut.err ("RX" ++ "ERR") ∧
    fixed "RX" 1048575968 ≠ FixedOut.disp "RX" (1024 * 1024) mibpsSign := by
  refine ⟨by decide, by decide, by decide⟩

/-- C1 (amended): for every label and integer rate, `fixed` returns
`label ++ " ERR"` when the rate is negative; the overflow marker
`label ++ "ERR"` when `rate ≥ 1048575968 = 1000·1024·1024 − 32` (the
float32 conversion rounds those rates up to the ceiling); divides by
`1024·1024` with the MiB/s suffix when `1000·1024 ≤ rate < 1048575968`;
divides by 1024 with the KiB/s suffix when `1000 ≤ rate < 1000·1024`;
and keeps base units with the B/s suffix when `0 ≤ rate < 1000`. -/
theorem c1_fixed_amended (pre : String) (rate : Int) :
    (rate < 0 → fixed pre rate = FixedOut.err (pre ++ " ERR")) ∧
    (1048575968 ≤ rate → fixed pre rate = FixedOut.err (pre ++ "ERR")) ∧
    (1000 * 1024 ≤ rate → rate < 1048575968 →
      fixed pre rate = FixedOut.disp pre (1024 * 1024) mibpsSign) ∧
    (1000 ≤ rate → rate < 1000 * 1024 →
      fixed pre rate = FixedOut.disp pre 1024 kibpsSign) ∧
    (0 ≤ rate → rate < 1000 →
      fixed pre rate = FixedOut.disp pre 1 bpsSign) := by
  refine ⟨?_, ?_, ?_, ?_, ?_⟩
  · intro hneg
    rw [fixed, if_pos hneg]
  · intro hbig
    have hnneg : ¬ rate < 0 := by omega
    have hspd : 1048576000 ≤ f32round rate.toNat :=
      f32round_ceiling_of_ge _ (by omega)
    rw [fixed, if_neg hnneg]
    simp only []
    rw [if_pos (by omega)]
  · intro hlo hhi
    have hnneg : ¬ rate < 0 := by omega
    have hlt : f32round rate.toNat < 1048576000 :=
      f32round_lt_ceiling _ (by omega)
    have hge : 1000 * 1024 ≤ f32round rate.toNat := by
      have := (f32round_threshold rate.toNat (1000 * 1024) (by norm_num)).2 (by omega)
      omega
    rw [fixed, if_neg hnneg]
    simp only []
    rw [if_neg (by omega), if_pos hge]
  · intro hlo hhi
    have hnneg : ¬ rate < 0 := by omega
    have hge : 1000 ≤ f32round rate.toNat := by
      have := (f32round_threshold rate.toNat 1000 (by norm_num)).2 (by omega)
      omega
    have hlt : ¬ 1000 * 1024 ≤ f32round rate.toNat := by
      intro hcon
      have := (f32round_threshold rate.toNat (1000 * 1024) (by norm_num)).1 hcon
      omega
    rw [fixed, if_neg hnneg]
    simp only []
    rw [if_neg (by omega), if_neg hlt, if_pos hge]
  · intro hlo hhi
    have hnneg : ¬ rate < 0 := by omega
    have hlt : ¬ 1000 ≤ f32round rate.toNat := by
      intro hcon
      have := (f32round_threshold rate.toNat 1000 (by norm_num)).1 hcon
      omega
    rw [fixed, if_neg hnneg]
    simp only []
    rw [if_neg (by omega), if_neg (by omega), if_neg hlt]

/-- C1 witness: the claim's three sample rates select the three unit
tiers, obtained from `c1_fixed_amended` at concrete inputs. -/
theorem c1_fixed_amended_witness :
    fixed "RX" 500 = FixedOut.disp "RX" 1 bpsSign ∧
    fixed "RX" 2000 = FixedOut.disp "RX" 1024 kibpsSign ∧
    fixed "RX" 2000000 = FixedOut.disp "RX" (1024 * 1024) mibpsSign :=
  ⟨(c1_fixed_amended "RX" 500).2.2.2.2 (by decide) (by decide),
   (c1_fixed_amended "RX" 2000).2.2.2.1 (by decide) (by decide),
   (c1_fixed_amended "RX" 2000000).2.2.1 (by decide) (by decide)⟩

/-! ## The network sampler `updateNetUse` (src/gods.go lines 323-346, variant B)

The `/proc/net/dev` table is abstracted to `none` (open failure) or the
list of parsed rows `(device, rx bytes, tx bytes)`; rows whose device is
in `netDevs` are summed.  The source publishes the string
`fixed(RX, Δrx) ++ " " ++ fixed(TX, Δtx)`; the pair of `FixedOut`
values carries exactly those two fields (and on open failure the source
string `"RX ERR TX ERR"` is the same pair of error markers joined by a
space).  The mutable globals `rxOld`/`txOld` are threaded as explicit
state: the deferred assignment at line 344 sets them to the current
totals on every successful read. -/

def sumRows (rows : List (String × Int × Int)) : Int × Int :=
  rows.foldl
    (fun acc r => if r.1 ∈ netDevs then (acc.1 + r.2.1, acc.2 + r.2.2) else acc)
    (0, 0)

def updateNetUse (table : Option (List (String × Int × Int))) (st : Int × Int) :
    (FixedOut × FixedOut) × (Int × Int) :=
  match table with
  | none =>
    ((FixedOut.err (netReceivedSign ++ " ERR"),
      FixedOut.err (netTransmittedSign ++ " ERR")), st)
  | some rows =>
    let rxNow := (sumRows rows).1
    let txNow := (sumRows rows).2
    ((fixed netReceivedSign (rxNow - st.1), fixed netTransmittedSign (txNow - st.2)),
     (rxNow, txNow))

/-! ## Claim C3 -/

/-- C3 counterexample: with previous totals (1000, 700) and current
totals (500, 600) — both cumulative counters decreased — the published
receive and transmit fields are the error markers `RX ERR` and
`TX ERR`, neither of which is the zero-traffic display of `fixed` at
rate 0. -/
theorem c3_decrease_counterexample :
    ((updateNetUse (some [("enp0s25:", 500, 600)]) (1000, 700)).1).1
      = FixedOut.err (netReceivedSign ++ " ERR") ∧
    ((updateNetUse (some [("enp0s25:", 500, 600)]) (1000, 700)).1).2
      = FixedOut.err (netTransmittedSign ++ " ERR") ∧
    FixedOut.err (netReceivedSign ++ " ERR") ≠ fixed netReceivedSign 0 ∧
    FixedOut.err (netTransmittedSign ++ " ERR") ≠ fixed netTransmittedSign 0 := by
  refine ⟨by decide, by decide, by decide, by decide⟩

/-- C3 (amended): whenever a cumulative byte counter — receive or
transmit — decreases between consecutive samples, the published field
for that direction is the error marker `label ++ " ERR"` produced by
`fixed` for the negative delta: the decrease is shown as an error, not
as zero traffic. -/
theorem c3_decrease_amended (rows : List (String × Int × Int)) (rxOld txOld : Int) :
    ((sumRows rows).1 < rxOld →
      ((updateNetUse (some rows) (rxOld, txOld)).1).1
        = FixedOut.err (netReceivedSign ++ " ERR")) ∧
    ((sumRows rows).2 < txOld →
      ((updateNetUse (some rows) (rxOld, txOld)).1).2
        = FixedOut.err (netTransmittedSign ++ " ERR")) := by
  constructor
  · intro h
    show fixed netReceivedSign ((sumRows rows).1 - rxOld)
        = FixedOut.err (netReceivedSign ++ " ERR")
    rw [fixed, if_pos (by omega)]
  · intro h
    show fixed netTransmittedSign ((sumRows rows).2 - txOld)
        = FixedOut.err (netTransmittedSign ++ " ERR")
    rw [fixed, if_pos (by omega)]

/-- C3 witness: the amended statement at the counterexample's input, for
both the receive and the transmit direction. -/
theorem c3_decrease_amended_witness :
    ((sumRows [("enp0s25:", 500, 600)]).1 < 1000 ∧
      ((updateNetUse (some [("enp0s25:", 500, 600)]) (1000, 700)).1).1
        = FixedOut.err (netReceivedSign ++ " ERR")) ∧
    ((sumRows [("enp0s25:", 500, 600)]).2 < 700 ∧
      ((updateNetUse (some [("enp0s25:", 500, 600)]) (1000, 700)).1).2
        = FixedOut.err (netTransmittedSign ++ " ERR")) :=
  ⟨⟨by decide, (c3_decrease_amended [("enp0s25:", 500, 600)] 1000 700).1 (by decide)⟩,
   ⟨by decide, (c3_decrease_amended [("enp0s25:", 500, 600)] 1000 700).2 (by decide)⟩⟩

/-! ## Claim C4 -/

/-- C4: when the network statistics table cannot be opened, the sampler
returns the fixed error markers for both the receive and the transmit
direction and leaves the previous-sample state unchanged; on a
successful read it sets that state to the current totals. -/
theorem c4_netErr_state (table : List (String × Int × Int)) (st : Int × Int) :
    updateNetUse none st
      = ((FixedOut.err (netReceivedSign ++ " ERR"),
          FixedOut.err (netTransmittedSign ++ " ERR")), st) ∧
    (updateNetUse (some table) st).2 = sumRows table := by
  exact ⟨rfl, rfl⟩

/-! ## Exact model of `int(float32(a)/float32(b) * 60)`

The time-remaining computation of both power samplers
(src/gods.go lines 139-146 and 408-415) is

  `remaining := float32(enNow) / float32(curNow)`
  `time_in_min := int(remaining * 60)`

`divRound24` rounds the exact rational `x/y` (x, y ≥ 1 naturals) to a
24-bit significand with ties to even, returning mantissa `M ∈ [2^23, 2^24]`
and exponent `E` so that the rounded value is `M·2^(E-23)`; multiplying
by 60 (exact in float32) and rounding the integer `60·M` back to 24 bits
gives the product's significand, and the final truncation toward zero is
integer division.  Signs are handled symmetrically, as IEEE rounding and
Go's `int()` truncation both are. -/

def nlog2 : Nat → Nat → Nat
  | 0, _ => 0
  | fuel + 1, n => if n < 2 then 0 else nlog2 fuel (n / 2) + 1

/-- Is `x/y < 2^e` (with `e : Int`)? -/
def ratLtPow2 (x y : Nat) (e : Int) : Bool :=
  if 0 ≤ e then decide (x < y * 2 ^ e.toNat) else decide (x * 2 ^ (-e).toNat < y)

def divRound24 (x y : Nat) : Nat × Int :=
  let e0 : Int := (nlog2 x x : Int) - (nlog2 y y : Int)
  let E : Int := if ratLtPow2 x y e0 then e0 - 1 else e0
  let s : Int := 23 - E
  let num := if 0 ≤ s then x * 2 ^ s.toNat else x
  let den := if 0 ≤ s then y else y * 2 ^ (-s).toNat
  let q := num / den
  let r := num % den
  (if den < 2 * r ∨ (2 * r = den ∧ q % 2 = 1) then q + 1 else q, E)

def timeInMin (enNow curNow : Int) : Int :=
  if curNow = 0 then 0
  else if enNow = 0 then 0
  else
    let x := f32round enNow.natAbs
    let y := f32round curNow.natAbs
    let M := (divRound24 x y).1
    let E := (divRound24 x y).2
    let N := f32round (60 * M)
    let mag : Nat := if 0 ≤ E - 23 then N * 2 ^ (E - 23).toNat else N / 2 ^ (23 - E).toNat
    if enNow < 0 ↔ curNow < 0 then (mag : Int) else -(mag : Int)

/-! ## Output formatting helpers -/

/-- Go `fmt.Sprintf("%3d", n)`: right-justified, space-padded to width 3. -/
def pad3 (n : Int) : String :=
  if (toString n).length ≥ 3 then toString n
  else String.mk (List.replicate (3 - (toString n).length) ' ') ++ toString n

/-- Go `fmt.Sprintf("%02d", n)`: zero-padded to width 2. -/
def pad02 (n : Int) : String :=
  if (toString n).length ≥ 2 then toString n else "0" ++ toString n

/-- The `" [%d:%02d]"` time-remaining suffix (src/gods.go lines 408-415):
hours are `time_in_min / 60` (truncating), minutes the remainder. -/
def timeSuffix (enNow curNow : Int) : String :=
  " [" ++ toString (Int.tdiv (timeInMin enNow curNow) 60) ++ ":"
    ++ pad02 (timeInMin enNow curNow - Int.tdiv (timeInMin enNow curNow) 60 * 60) ++ "]"

theorem string_append_empty (s : String) : s ++ "" = s := by
  cases s with
  | mk data =>
    show String.mk (data ++ []) = String.mk data
    rw [List.append_nil]

/-! ## The power sampler, variant B (src/gods.go lines 359-423)

The icon/time-remaining selection of lines 404-415: the icon is the
plugged sign exactly when the AC online file's content compares equal to
the string `"1\n"`; otherwise, on nonzero current draw, the
time-remaining suffix is computed. -/

def powerIconTimeB (plugged : String) (enNow curNow : Int) : String × String :=
  if plugged = "1\n" then (pluggedSign, "")
  else if curNow ≠ 0 then (unpluggedSign, timeSuffix enNow curNow)
  else (unpluggedSign, "")

/-- Lines 399-422 of variant B, from the aggregated totals: zero
full-energy yields the error marker, otherwise
`"%s %3d%s"` of icon, `enNow*100/enFull` and the time suffix.  (The
three `enPerc` threshold branches of the source are textually identical
and collapse to the single format.) -/
def updatePowerCoreB (plugged : String) (enFull enNow curNow : Int) : String :=
  if enFull = 0 then "ÏERR"
  else
    (powerIconTimeB plugged enNow curNow).1 ++ " "
      ++ pad3 (Int.tdiv (enNow * 100) enFull)
      ++ (powerIconTimeB plugged enNow curNow).2

/-- Go `unicode.IsSpace` on the whitespace code points `strings.TrimSpace`
strips (ASCII, Latin-1 and Unicode White_Space). -/
def goIsSpace (c : Char) : Bool :=
  decide (c ∈ [' ', '\t', '\n', '\x0B', '\x0C', '\r', '\u0085', ' ', ' ',
    ' ', ' ', ' ', ' ', ' ', ' ', ' ',
    ' ', ' ', ' ', ' ', ' ', ' ', ' ',
    ' ', '　'])

/-- Go `strings.TrimSpace`. -/
def goTrim (s : String) : String :=
  String.mk (((s.toList.dropWhile goIsSpace).reverse.dropWhile goIsSpace).reverse)

/-- The file content `readval` ends up converting
(src/gods.go lines 371-380): the first readable candidate file, with the
default content `"0"` when none is readable.  The file system is an
association from full path to content; an absent path is an unreadable
file. -/
def readvalFile (fs : List (String × String)) (name : String) (fields : List String) : String :=
  match fields.findSome? (fun f => hashFind fs (powerSupply ++ name ++ "/" ++ f)) with
  | some c => c
  | none => "0"

/-- `readval` (src/gods.go lines 371-385): `strconv.Atoi` of the trimmed
content, 0 on conversion error. -/
def readval (fs : List (String × String)) (name : String) (fields : List String) : Int :=
  match atoi (goTrim (readvalFile fs name fields)) with
  | some v => v
  | none => 0

/-- Go `strings.HasPrefix(name, "BAT")`. -/
def hasPrefixBAT (s : String) : Bool :=
  match s.toList with
  | 'B' :: 'A' :: 'T' :: _ => true
  | _ => false

/-- `updatePower` of variant B (src/gods.go lines 359-423): AC content
from the file table (`none` = unreadable, error marker), aggregation of
the three per-battery `readval` sums over BAT-prefixed directory names,
then the core formatting.  (A `ReadDir` failure, also the error marker,
is outside the modelled inputs: `battNames` is the successful listing.) -/
def updatePowerB (fs : List (String × String)) (battNames : List String) : String :=
  match hashFind fs (powerSupply ++ "AC/online") with
  | none => "ÏERR"
  | some plugged =>
    updatePowerCoreB plugged
      (((battNames.filter hasPrefixBAT).map
        (fun n => readval fs n ["energy_full", "charge_full"])).foldl (· + ·) 0)
      (((battNames.filter hasPrefixBAT).map
        (fun n => readval fs n ["energy_now", "charge_now"])).foldl (· + ·) 0)
      (((battNames.filter hasPrefixBAT).map
        (fun n => readval fs n ["current_now"])).foldl (· + ·) 0)

/-! ## The power sampler, variant A (src/gods.go lines 100-155)

Variant A parses each battery's uevent file through the key-value store
and tests the plug state with `plugged[0] == '1'` — an index into the
raw file content, which panics when the file is empty.  The panic is
modelled as `none`. -/

def powerIconTimeA : List Char → Int → Int → Option (String × String)
  | [], _, _ => none
  | c :: _, enNow, curNow =>
    some (if c = '1' then (pluggedSign, "")
      else if curNow ≠ 0 then (unpluggedSign, timeSuffix enNow curNow)
      else (unpluggedSign, ""))

/-- `updatePower` of variant A, with the AC online content and each
BAT-prefixed directory's uevent lines as explicit inputs. -/
def updatePowerA (plugged : String) (batts : List (String × List String)) : Option String :=
  let usable := batts.filter (fun b => hasPrefixBAT b.1)
  let enFull := (usable.map (fun b => battEnFull b.2)).foldl (· + ·) 0
  let enNow := (usable.map (fun b => battEnNow b.2)).foldl (· + ·) 0
  let curNow := (usable.map (fun b => battCurNow b.2)).foldl (· + ·) 0
  if enFull = 0 then some "ÏERR"
  else
    match powerIconTimeA plugged.toList enNow curNow with
    | none => none
    | some p => some (p.1 ++ " " ++ pad3 (Int.tdiv (enNow * 100) enFull) ++ p.2)

/-! ## The memory sampler `updateMemUse` (src/gods.go lines 443-475)

Rows are the `Sscanf`-parsed lines (`none` = a line whose parse fails,
which returns the error marker immediately); the loop stops once all
four `done` flag bits are set.  The final `used*100/total` divides by
zero — a Go runtime panic, modelled as `none` — whenever the loop
finishes with a zero total. -/

def memLoop (rows : List (Option (String × Int))) (total used : Int) (done : Nat) :
    Except String (Int × Int) :=
  if done = 15 then .ok (total, used)
  else
    match rows with
    | [] => .ok (total, used)
    | none :: _ => .error (memSign ++ "ERR")
    | some (prop, val) :: rest =>
      if prop = "MemTotal:" then memLoop rest val (used + val) (done ||| 1)
      else if prop = "MemFree:" then memLoop rest total (used - val) (done ||| 2)
      else if prop = "Buffers:" then memLoop rest total (used - val) (done ||| 4)
      else if prop = "Cached:" then memLoop rest total (used - val) (done ||| 8)
      else memLoop rest total used done

/-- `colored` (src/gods.go lines 349-356): all three branches produce
`"%s%3d"`. -/
def colored (icon : String) (percentage : Int) : String :=
  icon ++ pad3 percentage

def updateMemUse (table : Option (List (Option (String × Int)))) : Option String :=
  match table with
  | none => some (memSign ++ "ERR")
  | some rows =>
    match memLoop rows 0 0 0 with
    | .error s => some s
    | .ok (total, used) =>
      if total = 0 then none else some (colored memSign (Int.tdiv (used * 100) total))

/-! ## Claim C2 -/

/-- C2: from the aggregated battery totals, the variant-B power sampler
returns the error marker when the full-energy total is zero; otherwise
displays `enNow*100/enFull` (truncating integer division), appending the
time-remaining suffix exactly when AC is offline and the current draw is
nonzero; at the claim's concrete inputs (full 2000, now 1000, AC
offline) the result is `BAT  50` with no suffix for zero current and
`BAT  50 [2:00]` (two hours, per `(1000/500)·60` minutes) for current
500. -/
theorem c2_power (plugged : String) (enFull enNow curNow : Int) :
    (enFull = 0 → updatePowerCoreB plugged enFull enNow curNow = "ÏERR") ∧
    (enFull ≠ 0 → plugged ≠ "1\n" → curNow = 0 →
      updatePowerCoreB plugged enFull enNow curNow
        = unpluggedSign ++ " " ++ pad3 (Int.tdiv (enNow * 100) enFull)) ∧
    (enFull ≠ 0 → plugged ≠ "1\n" → curNow ≠ 0 →
      updatePowerCoreB plugged enFull enNow curNow
        = unpluggedSign ++ " " ++ pad3 (Int.tdiv (enNow * 100) enFull)
          ++ timeSuffix enNow curNow) ∧
    updatePowerCoreB "0\n" 2000 1000 0 = "BAT  50" ∧
    updatePowerCoreB "0\n" 2000 1000 500 = "BAT  50 [2:00]" := by
  refine ⟨?_, ?_, ?_, by decide, by decide⟩
  · intro h
    rw [updatePowerCoreB, if_pos h]
  · intro h hp hc
    have hpit : powerIconTimeB plugged enNow curNow = (unpluggedSign, "") := by
      rw [powerIconTimeB, if_neg hp, if_neg (by simp [hc])]
    rw [updatePowerCoreB, if_neg h, hpit]
    exact string_append_empty _
  · intro h hp hc
    have hpit : powerIconTimeB plugged enNow curNow
        = (unpluggedSign, timeSuffix enNow curNow) := by
      rw [powerIconTimeB, if_neg hp, if_pos hc]
    rw [updatePowerCoreB, if_neg h, hpit]

/-- C2 witness: the general branches applied at the claim's inputs. -/
theorem c2_power_witness :
    ((2000 : Int) ≠ 0 ∧ ("0\n" : String) ≠ "1\n" ∧
      updatePowerCoreB "0\n" 2000 1000 0
        = unpluggedSign ++ " " ++ pad3 (Int.tdiv (1000 * 100) 2000)) ∧
    ((500 : Int) ≠ 0 ∧
      updatePowerCoreB "0\n" 2000 1000 500
        = unpluggedSign ++ " " ++ pad3 (Int.tdiv (1000 * 100) 2000)
          ++ timeSuffix 1000 500) :=
  ⟨⟨by decide, by decide,
    (c2_power "0\n" 2000 1000 0).2.1 (by decide) (by decide) rfl⟩,
   ⟨by decide,
    (c2_power "0\n" 2000 1000 500).2.2.1 (by decide) (by decide) (by decide)⟩⟩

/-! ## Claim C7 -/

/-- C7 counterexample: with a readable but empty AC online file the
variant-A power sampler indexes into the empty content and panics
(modelled `none`), and with a memory-info table that opens but contains
no `MemTotal` line the memory sampler divides by zero and panics — both
cited samplers do crash on those environmental inputs. -/
theorem c7_crash_counterexample :
    updatePowerA ""
      [("BAT0", ["POWER_SUPPLY_ENERGY_FULL=2000", "POWER_SUPPLY_ENERGY_NOW=1000"])]
      = none ∧
    updateMemUse (some [some ("MemFree:", 100), some ("Buffers:", 50)]) = none := by
  refine ⟨by decide, by decide⟩

/-- C7 (amended): the samplers degrade to strings except for two panic
paths — the variant-A power sampler returns a string whenever the AC
online file's content is nonempty, and the memory sampler returns a
string whenever a line fails to parse first or the scanned total is
nonzero (it panics exactly on reaching the final division with a zero
total). -/
theorem c7_totality_amended :
    (∀ plugged batts, plugged ≠ "" → (updatePowerA plugged batts).isSome = true) ∧
    (∀ rows s, memLoop rows 0 0 0 = Except.error s → updateMemUse (some rows) = some s) ∧
    (∀ rows total used, memLoop rows 0 0 0 = Except.ok (total, used) → total ≠ 0 →
      (updateMemUse (some rows)).isSome = true) := by
  refine ⟨?_, ?_, ?_⟩
  · intro plugged batts hne
    obtain ⟨data⟩ := plugged
    simp only [updatePowerA]
    split
    · rfl
    · have hd : data ≠ [] := by
        intro h
        exact hne (by rw [h])
      cases data with
      | nil => exact absurd rfl hd
      | cons c cs =>
        have hl : String.toList (String.mk (c :: cs)) = c :: cs := rfl
        rw [hl]
        simp [powerIconTimeA]
  · intro rows s h
    simp only [updateMemUse]
    rw [h]
  · intro rows total used h hne
    simp only [updateMemUse]
    rw [h]
    simp [hne]

/-- C7 witness: the amended totality at concrete inputs (nonempty AC
content; a table with a nonzero `MemTotal`). -/
theorem c7_totality_amended_witness :
    (updatePowerA "0\n" [("BAT0", ["POWER_SUPPLY_ENERGY_FULL=2000"])]).isSome = true ∧
    (updateMemUse (some [some ("MemTotal:", 1000)])).isSome = true :=
  ⟨c7_totality_amended.1 "0\n" [("BAT0", ["POWER_SUPPLY_ENERGY_FULL=2000"])] (by decide),
   c7_totality_amended.2.2 [some ("MemTotal:", 1000)] 1000 1000 rfl (by decide)⟩

/-! ## Claim C8 -/

/-- C8 counterexample: in variant B, the AC content `"1"` — exactly the
single character `'1'` — does *not* show the plugged icon (the
comparison is against `"1\n"`); and in variant A the content `"10"`,
which is not the single character `'1'`, *does* show it (only the first
byte is tested). -/
theorem c8_icon_counterexample :
    (powerIconTimeB "1" 1000 0).1 = unpluggedSign ∧
    (powerIconTimeA ("10".toList) 1000 0).map Prod.fst = some pluggedSign ∧
    unpluggedSign ≠ pluggedSign := by
  refine ⟨by decide, by decide, by decide⟩

/-- C8 (amended): variant B shows the plugged icon exactly when the AC
online file's content is the two characters `"1\n"`; variant A shows it
exactly when the first byte of the (nonempty) content is `'1'`. -/
theorem c8_icon_amended (plugged : String) (enNow curNow : Int) (c : Char) (cs : List Char) :
    ((powerIconTimeB plugged enNow curNow).1 = pluggedSign ↔ plugged = "1\n") ∧
    ((powerIconTimeA (c :: cs) enNow curNow).map Prod.fst = some pluggedSign ↔ c = '1') := by
  constructor
  · rw [powerIconTimeB]
    split
    · rename_i h
      simp [h]
    · rename_i h
      split
      · refine iff_of_false ?_ h
        show ¬ unpluggedSign = pluggedSign
        decide
      · refine iff_of_false ?_ h
        show ¬ unpluggedSign = pluggedSign
        decide
  · rw [powerIconTimeA]
    by_cases hc : c = '1'
    · rw [if_pos hc]
      simp [hc, Option.map]
    · rw [if_neg hc]
      refine iff_of_false ?_ hc
      split
      · simp [Option.map, unpluggedSign, pluggedSign]
      · simp [Option.map, unpluggedSign, pluggedSign]

/-! ## Claim C10 -/

/-- The concrete file table for C10's scenario: AC offline, one battery
with readable energy files but an unreadable `current_now`. -/
def powerFsNoCur : List (String × String) :=
  [(powerSupply ++ "AC/online", "0\n"),
   (powerSupply ++ "BAT0/energy_full", "2000"),
   (powerSupply ++ "BAT0/energy_now", "1000")]

/-- C10: `readval` returns 0 when none of the candidate files is
readable (the content defaults to `"0"`) and when the chosen file's
trimmed content does not parse as an integer; consequently the battery
of `powerFsNoCur`, whose `current_now` is unreadable, contributes zero
current draw and the sampler output `BAT  50` carries no time-remaining
suffix. -/
theorem c10_readval (fs : List (String × String)) (name : String) (fields : List String) :
    ((∀ f ∈ fields, hashFind fs (powerSupply ++ name ++ "/" ++ f) = none) →
      readval fs name fields = 0) ∧
    (∀ content, readvalFile fs name fields = content → atoi (goTrim content) = none →
      readval fs name fields = 0) ∧
    updatePowerB powerFsNoCur ["BAT0"] = unpluggedSign ++ "  50" := by
  refine ⟨?_, ?_, by decide⟩
  · intro habs
    have hfile : readvalFile fs name fields = "0" := by
      rw [readvalFile, List.findSome?_eq_none_iff.mpr habs]
    rw [readval, hfile]
    decide
  · intro content hfile hparse
    rw [readval, hfile, hparse]

/-- C10 witness: the no-readable-candidate branch on an empty file
table, and the unparseable-content branch on a table whose
`current_now` holds `bogus`. -/
theorem c10_readval_witness :
    readval [] "BAT0" ["current_now"] = 0 ∧
    readval [(powerSupply ++ "BAT1/current_now", "bogus")] "BAT1" ["current_now"] = 0 :=
  ⟨(c10_readval [] "BAT0" ["current_now"]).1 (by decide),
   (c10_readval [(powerSupply ++ "BAT1/current_now", "bogus")] "BAT1" ["current_now"]).2.1
     "bogus" (by decide) (by decide)⟩

end Gods
